import Mathlib

/-!
A shallow embedding of the site-monitoring Telegram alert bot in src/main.py,
with theorems checking the specification's claims about its change-detection
core (fetch retry, keyword extraction, set diff, batch dispatch, persistence,
and the force-check control endpoint).

Python strings are modelled as lists of characters (code points), matching
Python length and indexing semantics.  ASCII case mapping is used for
str.lower / str.upper; every configured keyword and site key in main.py is
ASCII.  urljoin is kept abstract (a parameter), since no claim depends on its
semantics.  Network and filesystem effects are modelled as explicit inputs
(fetch outcomes, send outcomes) and explicit state (the per-site seen set).
-/

set_option maxRecDepth 10000

/-- A Python string: a list of characters. -/
abbrev Str := List Char

/-- Conversion from a Lean string literal to the model. -/
def str (s : String) : Str := s.toList

/-- ASCII model of Python str.lower applied to one character
(main.py line 130 applies .lower() to the extracted title). -/
def lowerChar (c : Char) : Char :=
  if 'A' ≤ c ∧ c ≤ 'Z' then Char.ofNat (c.toNat + 32) else c

/-- ASCII model of Python str.lower (main.py line 130). -/
def lowerStr (s : Str) : Str := s.map lowerChar

/-- ASCII model of Python str.upper applied to one character
(main.py lines 157 and 163 apply .upper() to the site key). -/
def upperChar (c : Char) : Char :=
  if 'a' ≤ c ∧ c ≤ 'z' then Char.ofNat (c.toNat - 32) else c

/-- ASCII model of Python str.upper (main.py lines 157, 163). -/
def upperStr (s : Str) : Str := s.map upperChar

/-- Whitespace characters recognised by Python str.split() / str.strip()
(space, tab, newline, carriage return, vertical tab, form feed). -/
def isWsChar (c : Char) : Bool :=
  c = ' ' || c = '\t' || c = '\n' || c = '\r' || c = Char.ofNat 11 || c = Char.ofNat 12

/-- Python sep.join(parts) (main.py lines 129, 157, 163). -/
def joinSep (sep : Str) : List Str → Str
  | [] => []
  | [x] => x
  | x :: xs => x ++ sep ++ joinSep sep xs

/-- Title normalisation from main.py line 129:
a space-join of str.split(), collapsing runs of whitespace. -/
def normalizeTitle (s : Str) : Str :=
  joinSep (str " ") ((s.splitOnP isWsChar).filter fun w => !w.isEmpty)

/-- Python str.strip() on the href attribute (main.py line 132). -/
def stripWs (s : Str) : Str :=
  ((s.dropWhile isWsChar).reverse.dropWhile isWsChar).reverse

/-- Python string prefix test, used to define substring containment. -/
def startsWith : Str → Str → Bool
  | [], _ => true
  | _ :: _, [] => false
  | p :: ps, t :: ts => p == t && startsWith ps ts

/-- Python substring containment, the semantics of the in operator on
strings (main.py line 131: kw in title_lower). -/
def containsSub (pat : Str) : Str → Bool
  | [] => startsWith pat []
  | c :: ts => startsWith pat (c :: ts) || containsSub pat ts

/-- Python itm.split(sep, 1) restricted to the fixed separator of two
colons (main.py line 152): scans for the first occurrence of the
separator; some (before, after) on success, none when absent. -/
def splitDD : Str → Option (Str × Str)
  | c1 :: c2 :: rest =>
    if c1 = ':' ∧ c2 = ':' then some ([], rest)
    else (splitDD (c2 :: rest)).map fun p => (c1 :: p.1, p.2)
  | _ => none

/-- Serialisation of a canonical item (main.py line 133):
the f-string joining title and absolute URL with a double colon. -/
def mkItem (title url : Str) : Str := title ++ str "::" ++ url

/-- Recovery of (heading, url) from a serialised item in the dispatcher
(main.py lines 151-154): split at the first double colon; the ValueError
fallback when no separator exists yields (itm, itm). -/
def parseItem (itm : Str) : Str × Str :=
  match splitDD itm with
  | some p => p
  | none => (itm, itm)

/-- The configured keyword list (main.py lines 24-27). -/
def KEYWORDS : List Str :=
  [str "dental", str "dentist", str "assistant surgeon",
   str "neet mds", str "neet mds 2025", str "neet mds 2026"]

/-- The keyword filter of main.py line 131: any configured keyword occurs
as a substring of the lowercased title. -/
def keywordHit (titleLower : Str) : Bool := KEYWORDS.any fun kw => containsSub kw titleLower

/-- Whether an anchor element (visible text, href) is retained by the
extractor (main.py lines 129-131): whitespace-normalise the visible text,
lowercase it, and keep the element when any keyword is a substring. -/
def retainedAnchor (a : Str × Str) : Bool := keywordHit (lowerStr (normalizeTitle a.1))

/-- The extractor of main.py lines 126-133: from the anchors carrying an
href (modelled as (visible text, href) pairs), keep the keyword matches and
collect the serialised items into a set.  resolve abstracts
urljoin(base_url, href) of line 132. -/
def extract (resolve : Str → Str) (anchors : List (Str × Str)) : Finset Str :=
  ((anchors.filter retainedAnchor).map fun a =>
    mkItem (normalizeTitle a.1) (resolve (stripWs a.2))).toFinset

/-- The diff engine of main.py lines 134-143: previous = none models the
missing snapshot file (load_seen_links returning None, lines 59-62).  On
first run the current set is saved with no alerts; otherwise the new items
are current minus previous and the next state adds them to previous. -/
def diff (current : Finset Str) (previous : Option (Finset Str)) : Finset Str × Finset Str :=
  match previous with
  | none => (∅, current)
  | some prev => (current \ prev, prev ∪ (current \ prev))

/-- Python html.escape on one character (main.py line 155); quote selects
the variant that also escapes quote characters, used for the href. -/
def escChar (quote : Bool) (c : Char) : Str :=
  if c = '&' then str "&amp;"
  else if c = '<' then str "&lt;"
  else if c = '>' then str "&gt;"
  else if quote && c = Char.ofNat 34 then str "&quot;"
  else if quote && c = Char.ofNat 39 then str "&#x27;"
  else [c]

/-- Python html.escape (main.py line 155). -/
def htmlEscape (quote : Bool) (s : Str) : Str := (s.map (escChar quote)).flatten

/-- The rendered fragment for one item (main.py lines 151-155): an HTML
anchor whose href is the escaped recovered url and whose text is the
escaped recovered heading. -/
def renderPart (itm : Str) : Str :=
  let p := parseItem itm
  str "<a href=\"" ++ htmlEscape true p.2 ++ str "\">" ++ htmlEscape false p.1 ++ str "</a>"

/-- The length of an item's rendered fragment, the quantity accumulated in
total_len by main.py lines 156 and 161. -/
def partLen (itm : Str) : Nat := (renderPart itm).length

/-- The batching loop of send_in_chunks (main.py lines 148-164), generic in
the item weight: when adding the next fragment would push the accumulated
total over the limit, the current batch is flushed (even if empty, as the
code does) and a new batch starts; a final non-empty batch is flushed. -/
def chunksAux {α : Type} (w : α → Nat) (limit : Nat) : List α → List α → Nat → List (List α)
  | [], batch, _ => if batch.isEmpty then [] else [batch]
  | p :: rest, batch, total =>
    if limit < total + w p then batch :: chunksAux w limit rest [p] (w p)
    else chunksAux w limit rest (batch ++ [p]) (total + w p)

/-- The list of batches produced by the loop of main.py lines 148-164,
starting from an empty batch and zero accumulated length. -/
def chunks {α : Type} (w : α → Nat) (limit : Nat) (l : List α) : List (List α) :=
  chunksAux w limit l [] 0

/-- Python sorted(items) over a set of strings (main.py line 150):
the ascending lexicographic enumeration of the set. -/
def sortItems (s : Finset Str) : List Str := s.sort (· ≤ ·)

/-- The per-message site header of main.py lines 157 and 163. -/
def headerFor (key : Str) : Str :=
  str "🚨 <b>" ++ htmlEscape false (upperStr key) ++ str " Update(s)</b>\n\n"

/-- One outbound notification message (main.py lines 157, 163): the site
header followed by the batch fragments joined by blank lines. -/
def mkMessage (key : Str) (batch : List Str) : Str :=
  headerFor key ++ joinSep (str "\n\n") (batch.map renderPart)

/-- All outbound messages send_in_chunks produces for a set of items:
sort, batch by fragment length against the 3500 limit, render each batch. -/
def messagesFor (key : Str) (items : Finset Str) : List Str :=
  (chunks partLen 3500 (sortItems items)).map (mkMessage key)

/-- fetch_with_retry (main.py lines 104-115) over an explicit list of
attempt outcomes (none = transport error or non-success status raised by
raise_for_status): the first successful response is returned; none when
every attempt fails. -/
def fetchWithRetry {α : Type} : List (Option α) → Option α
  | [] => none
  | some c :: _ => some c
  | none :: rest => fetchWithRetry rest

/-- The per-site state visible across cycles.  stored models the snapshot
file (none = file absent, main.py lines 59-62).  The remaining fields are
observation history used to state the claims: seed is the set written by
the silent first-run initialisation (line 135), attempted collects items
included in some dispatched batch, delivered collects items of batches
whose Telegram send returned success, dispatched lists every message text
passed to send_telegram_message. -/
structure CycleState where
  stored : Option (Finset Str)
  seed : Finset Str
  attempted : Finset Str
  delivered : Finset Str
  dispatched : List Str
deriving DecidableEq

/-- The environment of one check_site call: the fetch outcome (none = all
retries failed; some anchors = the parsed page) and the success of the
Telegram send for each message text. -/
structure CycleInput where
  fetched : Option (List (Str × Str))
  sendOk : Str → Bool

/-- The state before any cycle: no snapshot file, nothing observed. -/
def initState : CycleState := ⟨none, ∅, ∅, ∅, []⟩

/-- The alerting branch of check_site (main.py lines 139-143) together
with send_in_chunks: batch the new items, dispatch every batch (send
results are ignored by the code), then persist previous plus new items. -/
def dispatchUpdate (key : Str) (s : CycleState) (prev newItems : Finset Str)
    (sendOk : Str → Bool) : CycleState :=
  ⟨some (prev ∪ newItems),
   s.seed,
   s.attempted ∪ (chunks partLen 3500 (sortItems newItems)).flatten.toFinset,
   s.delivered ∪ ((chunks partLen 3500 (sortItems newItems)).filter
      fun b => sendOk (mkMessage key b)).flatten.toFinset,
   s.dispatched ++ (chunks partLen 3500 (sortItems newItems)).map (mkMessage key)⟩

/-- One full check_site cycle (main.py lines 118-145).  Fetch failure
aborts with no state change (lines 122-124).  An absent snapshot seeds the
baseline silently (lines 134-137).  No new items means no send and no save
(lines 144-145).  Otherwise dispatch and save (lines 138-143). -/
def cycleStep (key : Str) (resolve : Str → Str) (s : CycleState) (inp : CycleInput) :
    CycleState :=
  match inp.fetched with
  | none => s
  | some anchors =>
    match s.stored with
    | none => ⟨some (extract resolve anchors), extract resolve anchors,
               s.attempted, s.delivered, s.dispatched⟩
    | some prev =>
      if extract resolve anchors \ prev = ∅ then s
      else dispatchUpdate key s prev (extract resolve anchors \ prev) inp.sendOk

/-- States reachable from the initial state by repeated cycles of one
site, under arbitrary fetch and send outcomes. -/
inductive Reachable (key : Str) (resolve : Str → Str) : CycleState → Prop
  | init : Reachable key resolve initState
  | step (s : CycleState) (inp : CycleInput) :
      Reachable key resolve s → Reachable key resolve (cycleStep key resolve s inp)

/-- Python truthiness of the optional FORCE_TOKEN value (main.py line 192
tests if FORCE_TOKEN): None and the empty string are falsy. -/
def pyTruthy : Option Str → Bool
  | none => false
  | some s => !s.isEmpty

/-- The force-check endpoint (main.py lines 189-202) as a function of the
configured secret and the request token: the pair is (HTTP status, whether
the one-pass worker thread is started). -/
def forceCheck (secret : Option Str) (token : Option Str) : Nat × Bool :=
  if pyTruthy secret && token != secret then (403, false) else (200, true)

/-- Four items whose rendered fragments each have length 1000
(12 characters of anchor opening, a 984-character URL, 4 of closing). -/
def itemA : Str := mkItem ['a'] (List.replicate 984 'b')

/-- Second 1000-character-fragment item. -/
def itemB : Str := mkItem ['a'] (List.replicate 984 'c')

/-- Third 1000-character-fragment item. -/
def itemC : Str := mkItem ['a'] (List.replicate 984 'd')

/-- Fourth 1000-character-fragment item. -/
def itemD : Str := mkItem ['a'] (List.replicate 984 'e')

/-- The four-item set realising fragment sizes [1000, 1000, 1000, 1000]. -/
def ex4 : Finset Str := {itemA, itemB, itemC, itemD}

/-- A site key used for concrete evaluations (a real key from SITES). -/
def keyW : Str := str "mrb"

/-- A concrete resolver (identity), standing in for urljoin. -/
def resolveW : Str → Str := fun h => h

/-- A concrete keyword-matching anchor. -/
def anchorW : Str × Str := (str "NEET MDS 2025 Notification", str "n.pdf")

/-- The item extracted from anchorW under resolveW. -/
def itW : Str := mkItem (str "NEET MDS 2025 Notification") (str "n.pdf")

/-- State after one cycle from the initial state on an empty page:
the baseline is seeded with the empty set. -/
def s1W : CycleState := cycleStep keyW resolveW initState ⟨some [], fun _ => true⟩

/-- State after a second cycle on a page containing anchorW, with every
Telegram send failing. -/
def s2W : CycleState := cycleStep keyW resolveW s1W ⟨some [anchorW], fun _ => false⟩

/-- An item whose rendered fragment has length 3616, exceeding the 3500
limit on its own. -/
def bigItem : Str := mkItem ['t'] (List.replicate 3600 'a')

/-- A state with an initialised empty baseline, for concrete instantiation
of the monotonicity theorem. -/
def s9 : CycleState := ⟨some ∅, ∅, ∅, ∅, []⟩

/-- A small singleton item set for concrete instantiation of the batch
size bound. -/
def exW : Finset Str := {itW}

/-! Helper lemmas about the embedded operations. -/

theorem splitDD_append : ∀ (t a b s : Str), splitDD t = some (a, b) →
    splitDD (t ++ s) = some (a, b ++ s) := by
  intro t
  induction t with
  | nil => intro a b s h; simp [splitDD] at h
  | cons c rest ih =>
    intro a b s h
    cases rest with
    | nil => simp [splitDD] at h
    | cons c2 r2 =>
      by_cases hc : c = ':' ∧ c2 = ':'
      · simp only [splitDD, if_pos hc, Option.some.injEq, Prod.mk.injEq] at h
        show splitDD (c :: c2 :: (r2 ++ s)) = some (a, b ++ s)
        simp only [splitDD, if_pos hc, Option.some.injEq, Prod.mk.injEq]
        exact ⟨h.1, by rw [← h.2]⟩
      · simp only [splitDD, if_neg hc] at h
        show splitDD (c :: c2 :: (r2 ++ s)) = some (a, b ++ s)
        simp only [splitDD, if_neg hc]
        cases hsplit : splitDD (c2 :: r2) with
        | none => rw [hsplit] at h; simp at h
        | some p =>
          rw [hsplit] at h
          simp only [Option.map_some', Option.some.injEq, Prod.mk.injEq] at h
          have h2 := ih p.1 p.2 s hsplit
          rw [show (c2 :: r2) ++ s = c2 :: (r2 ++ s) from rfl] at h2
          rw [h2]
          simp only [Option.map_some', Option.some.injEq, Prod.mk.injEq]
          exact ⟨by rw [← h.1], by rw [← h.2]⟩

theorem splitDD_decomp : ∀ (t a b : Str), splitDD t = some (a, b) →
    t = a ++ ':' :: ':' :: b := by
  intro t
  induction t with
  | nil => intro a b h; simp [splitDD] at h
  | cons c rest ih =>
    intro a b h
    cases rest with
    | nil => simp [splitDD] at h
    | cons c2 r2 =>
      by_cases hc : c = ':' ∧ c2 = ':'
      · simp only [splitDD, if_pos hc, Option.some.injEq, Prod.mk.injEq] at h
        rw [← h.1, ← h.2, hc.1, hc.2]
        rfl
      · simp only [splitDD, if_neg hc] at h
        cases hsplit : splitDD (c2 :: r2) with
        | none => rw [hsplit] at h; simp at h
        | some p =>
          rw [hsplit] at h
          simp only [Option.map_some', Option.some.injEq, Prod.mk.injEq] at h
          have h2 := ih p.1 p.2 hsplit
          rw [← h.1, ← h.2]
          rw [show (c :: p.1) ++ ':' :: ':' :: p.2 = c :: (p.1 ++ ':' :: ':' :: p.2) from rfl]
          rw [← h2]

theorem startsWith_iff : ∀ (p t : Str), startsWith p t = true ↔ ∃ r, p ++ r = t := by
  intro p
  induction p with
  | nil => intro t; simp [startsWith]
  | cons c ps ih =>
    intro t
    cases t with
    | nil => simp [startsWith]
    | cons d ts =>
      simp only [startsWith, Bool.and_eq_true, beq_iff_eq]
      constructor
      · rintro ⟨rfl, h⟩
        obtain ⟨r, rfl⟩ := (ih ts).mp h
        exact ⟨r, rfl⟩
      · rintro ⟨r, h⟩
        rw [List.cons_append] at h
        injection h with h1 h2
        exact ⟨h1, (ih ts).mpr ⟨r, h2⟩⟩

theorem containsSub_iff : ∀ (p t : Str), containsSub p t = true ↔ ∃ l r, l ++ p ++ r = t := by
  intro p t
  induction t with
  | nil =>
    simp only [containsSub, startsWith_iff]
    constructor
    · rintro ⟨r, h⟩; exact ⟨[], r, h⟩
    · rintro ⟨l, r, h⟩
      rw [List.append_assoc] at h
      rw [List.append_eq_nil] at h
      exact ⟨r, h.2⟩
  | cons c ts ih =>
    simp only [containsSub, Bool.or_eq_true, startsWith_iff, ih]
    constructor
    · rintro (⟨r, h⟩ | ⟨l, r, h⟩)
      · exact ⟨[], r, h⟩
      · exact ⟨c :: l, r, by rw [← h]; rfl⟩
    · rintro ⟨l, r, h⟩
      cases l with
      | nil => exact Or.inl ⟨r, by simpa using h⟩
      | cons d l2 =>
        right
        rw [List.cons_append, List.cons_append] at h
        injection h with h1 h2
        exact ⟨l2, r, h2⟩

theorem chunksAux_flatten {α : Type} (w : α → Nat) (limit : Nat) (l : List α) :
    ∀ batch total, (chunksAux w limit l batch total).flatten = batch ++ l := by
  induction l with
  | nil =>
    intro batch total
    by_cases h : batch.isEmpty
    · simp [chunksAux, h, List.isEmpty_iff.mp h]
    · simp [chunksAux, h]
  | cons p rest ih =>
    intro batch total
    by_cases h : limit < total + w p
    · simp [chunksAux, h, ih]
    · simp [chunksAux, h, ih]

theorem chunks_flatten {α : Type} (w : α → Nat) (limit : Nat) (l : List α) :
    (chunks w limit l).flatten = l :=
  chunksAux_flatten w limit l [] 0

theorem chunksAux_sum_le {α : Type} (w : α → Nat) (limit : Nat) (l : List α)
    (hl : ∀ p ∈ l, w p ≤ limit) :
    ∀ batch total, (batch.map w).sum = total → total ≤ limit →
      ∀ b ∈ chunksAux w limit l batch total, (b.map w).sum ≤ limit := by
  induction l with
  | nil =>
    intro batch total hbt hle b hb
    simp only [chunksAux] at hb
    by_cases h : batch.isEmpty
    · simp [h] at hb
    · simp [h] at hb
      rw [hb, hbt]
      exact hle
  | cons p rest ih =>
    intro batch total hbt hle b hb
    have hrest : ∀ q ∈ rest, w q ≤ limit := fun q hq => hl q (List.mem_cons_of_mem p hq)
    simp only [chunksAux] at hb
    by_cases h : limit < total + w p
    · rw [if_pos h] at hb
      rcases List.mem_cons.mp hb with rfl | hb2
      · rw [hbt]; exact hle
      · exact ih hrest [p] (w p) (by simp) (hl p (List.mem_cons_self p rest)) b hb2
    · rw [if_neg h] at hb
      exact ih hrest (batch ++ [p]) (total + w p) (by simp [hbt]) (Nat.le_of_not_lt h) b hb

theorem htmlEscape_replicate (q : Bool) (c : Char) (h : escChar q c = [c]) (n : Nat) :
    htmlEscape q (List.replicate n c) = List.replicate n c := by
  induction n with
  | zero => rfl
  | succ n ih =>
    rw [List.replicate_succ]
    simp only [htmlEscape, List.map_cons, List.flatten_cons, h]
    simp only [htmlEscape] at ih
    rw [ih]
    rfl

theorem partLen_single (t0 c : Char) (ht : ¬ t0 = ':') (h2 : escChar false t0 = [t0])
    (h1 : escChar true c = [c]) (n : Nat) :
    partLen (mkItem [t0] (List.replicate n c)) = 16 + n := by
  have hmk : mkItem [t0] (List.replicate n c) = t0 :: ':' :: ':' :: List.replicate n c := rfl
  have hsplit : splitDD (mkItem [t0] (List.replicate n c)) = some ([t0], List.replicate n c) := by
    rw [hmk]
    simp [splitDD, ht]
  rw [partLen, renderPart, parseItem, hsplit]
  simp only [htmlEscape_replicate true c h1]
  simp only [htmlEscape, List.map_cons, List.map_nil, List.flatten_cons, List.flatten_nil, h2]
  simp [str, List.length_append, List.length_replicate]
  omega

theorem sortItems_singleton (x : Str) : sortItems {x} = [x] :=
  Finset.sort_singleton _ x

theorem sortItems_toFinset (s : Finset Str) : (sortItems s).toFinset = s :=
  Finset.sort_toFinset _ s

theorem fetchWithRetry_all_none {α : Type} :
    ∀ l : List (Option α), (∀ a ∈ l, a = none) → fetchWithRetry l = none := by
  intro l
  induction l with
  | nil => intro _; rfl
  | cons a rest ih =>
    intro h
    rw [h a (List.mem_cons_self a rest)]
    show fetchWithRetry rest = none
    exact ih fun x hx => h x (List.mem_cons_of_mem a hx)

theorem keywords_lower : ∀ kw ∈ KEYWORDS, lowerStr kw = kw := by decide

theorem cycleStep_fetch_fail (key : Str) (resolve : Str → Str) (s : CycleState)
    (sendOk : Str → Bool) : cycleStep key resolve s ⟨none, sendOk⟩ = s := rfl

theorem cycleStep_uninit (key : Str) (resolve : Str → Str) (s : CycleState)
    (anchors : List (Str × Str)) (sendOk : Str → Bool) (h : s.stored = none) :
    cycleStep key resolve s ⟨some anchors, sendOk⟩ =
      ⟨some (extract resolve anchors), extract resolve anchors,
       s.attempted, s.delivered, s.dispatched⟩ := by
  simp only [cycleStep, h]

theorem cycleStep_no_new (key : Str) (resolve : Str → Str) (s : CycleState)
    (anchors : List (Str × Str)) (sendOk : Str → Bool) (prev : Finset Str)
    (h : s.stored = some prev) (hnew : extract resolve anchors \ prev = ∅) :
    cycleStep key resolve s ⟨some anchors, sendOk⟩ = s := by
  simp only [cycleStep, h, if_pos hnew]

theorem cycleStep_new (key : Str) (resolve : Str → Str) (s : CycleState)
    (anchors : List (Str × Str)) (sendOk : Str → Bool) (prev : Finset Str)
    (h : s.stored = some prev) (hnew : ¬ extract resolve anchors \ prev = ∅) :
    cycleStep key resolve s ⟨some anchors, sendOk⟩ =
      dispatchUpdate key s prev (extract resolve anchors \ prev) sendOk := by
  simp only [cycleStep, h, if_neg hnew]

theorem s1W_eq : s1W = ⟨some ∅, ∅, ∅, ∅, []⟩ := by decide

theorem s2W_eq : s2W = ⟨some {itW}, ∅, {itW}, ∅, [mkMessage keyW [itW]]⟩ := by
  show cycleStep keyW resolveW s1W ⟨some [anchorW], fun _ => false⟩ = _
  rw [s1W_eq]
  rw [cycleStep_new keyW resolveW ⟨some ∅, ∅, ∅, ∅, []⟩ [anchorW] (fun _ => false) ∅ rfl
    (by decide)]
  rw [show extract resolveW [anchorW] \ (∅ : Finset Str) = {itW} from by decide]
  simp only [dispatchUpdate, sortItems_singleton]
  decide

/-! The claims. -/

/-- C1: First-run suppression.  When the stored state of a site is absent
(no snapshot file), a cycle sends no alerts, leaves the dispatch history
untouched, and persists exactly the currently extracted set as the new
baseline; at the diff level, diff of any current set against the
uninitialised sentinel yields no new items and the current set as the next
state. -/
theorem c1_first_run_suppression : ∀ (key : Str) (resolve : Str → Str) (s : CycleState)
    (anchors : List (Str × Str)) (sendOk : Str → Bool), s.stored = none →
    (cycleStep key resolve s ⟨some anchors, sendOk⟩ =
      ⟨some (extract resolve anchors), extract resolve anchors,
       s.attempted, s.delivered, s.dispatched⟩) ∧
    ∀ current : Finset Str, diff current none = (∅, current) := by
  intro key resolve s anchors sendOk h
  exact ⟨cycleStep_uninit key resolve s anchors sendOk h, fun current => rfl⟩

/-- Witness for C1 at a concrete uninitialised state. -/
theorem c1_first_run_suppression_witness :
    initState.stored = none ∧
      ((cycleStep keyW resolveW initState ⟨some [], fun _ => false⟩ =
        ⟨some (extract resolveW []), extract resolveW [],
         initState.attempted, initState.delivered, initState.dispatched⟩) ∧
       ∀ current : Finset Str, diff current none = (∅, current)) :=
  ⟨rfl, c1_first_run_suppression keyW resolveW initState [] (fun _ => false) rfl⟩

/-- C2 is false as stated: in the reachable state s2W, the item itW is in
the persisted seen set and is not part of the first-run seed, yet it was
never successfully delivered (its Telegram send failed and check_site
ignores the send result before saving). -/
theorem c2_no_lost_alerts_counterexample :
    ¬ ∀ (key : Str) (resolve : Str → Str) (s : CycleState), Reachable key resolve s →
        ∀ S, s.stored = some S → ∀ it ∈ S, it ∉ s.seed → it ∈ s.delivered := by
  intro h
  have hr : Reachable keyW resolveW s2W :=
    Reachable.step _ _ (Reachable.step _ _ Reachable.init)
  have hst : s2W.stored = some {itW} := by rw [s2W_eq]
  have hseed : itW ∉ s2W.seed := by rw [s2W_eq]; decide
  have hdel := h keyW resolveW s2W hr {itW} hst itW (by decide) hseed
  rw [s2W_eq] at hdel
  exact absurd hdel (by decide)

/-- C2 (amended): in every reachable state, every item of the persisted
seen set other than the first-run seed has been included in a dispatched
notification batch (a send was attempted); successful delivery is not
guaranteed, and an item whose send fails is still marked seen and is not
re-alerted. -/
theorem c2_no_lost_alerts_amended : ∀ (key : Str) (resolve : Str → Str) (s : CycleState),
    Reachable key resolve s →
    ∀ S, s.stored = some S → ∀ it ∈ S, it ∉ s.seed → it ∈ s.attempted := by
  intro key resolve s h
  induction h with
  | init => intro S hS; simp [initState] at hS
  | step s inp hr ih =>
    intro S hS it hit hseed
    cases hf : inp.fetched with
    | none =>
      have hstep : cycleStep key resolve s inp = s := by simp only [cycleStep, hf]
      rw [hstep] at hS hseed ⊢
      exact ih S hS it hit hseed
    | some anchors =>
      cases hst : s.stored with
      | none =>
        have hstep : cycleStep key resolve s inp =
            ⟨some (extract resolve anchors), extract resolve anchors,
             s.attempted, s.delivered, s.dispatched⟩ := by
          simp only [cycleStep, hf, hst]
        rw [hstep] at hS hseed ⊢
        simp only at hS hseed ⊢
        injection hS with hS2
        rw [← hS2] at hit
        exact absurd hit hseed
      | some prev =>
        by_cases hnew : extract resolve anchors \ prev = ∅
        · have hstep : cycleStep key resolve s inp = s := by
            simp only [cycleStep, hf, hst, if_pos hnew]
          rw [hstep] at hS hseed ⊢
          exact ih S hS it hit hseed
        · have hstep : cycleStep key resolve s inp =
              dispatchUpdate key s prev (extract resolve anchors \ prev) inp.sendOk := by
            simp only [cycleStep, hf, hst, if_neg hnew]
          rw [hstep] at hS hseed ⊢
          simp only [dispatchUpdate] at hS hseed ⊢
          injection hS with hS2
          rw [← hS2] at hit
          rw [Finset.mem_union]
          rcases Finset.mem_union.mp hit with hp | hn
          · exact Or.inl (ih prev hst it hp hseed)
          · right
            rw [chunks_flatten, sortItems_toFinset]
            exact hn

/-- Witness for the amended C2 at the concrete reachable state s2W. -/
theorem c2_no_lost_alerts_amended_witness :
    s2W.stored = some {itW} ∧ itW ∉ s2W.seed ∧ itW ∈ s2W.attempted :=
  ⟨by simp [s2W_eq], by simp [s2W_eq],
   c2_no_lost_alerts_amended keyW resolveW s2W
     (Reachable.step _ _ (Reachable.step _ _ Reachable.init)) {itW}
     (by simp [s2W_eq]) itW (by decide) (by simp [s2W_eq])⟩

/-- C3: Idempotence of the diff engine.  Feeding the next state of one
diff back in as the previous state of a second diff over the same current
set yields no new items, for any previous state including the
uninitialised sentinel. -/
theorem c3_diff_idempotent : ∀ (current : Finset Str) (previous : Option (Finset Str)),
    (diff current (some (diff current previous).2)).1 = ∅ := by
  intro current previous
  cases previous with
  | none =>
    show (diff current (some current)).1 = ∅
    simp [diff]
  | some prev =>
    show (diff current (some (prev ∪ (current \ prev)))).1 = ∅
    simp only [diff]
    rw [Finset.sdiff_eq_empty_iff_subset]
    intro x hx
    by_cases hp : x ∈ prev
    · exact Finset.mem_union_left _ hp
    · exact Finset.mem_union_right _ (Finset.mem_sdiff.mpr ⟨hx, hp⟩)

/-- C4: Retry exhaustion leaves state unchanged.  If every fetch attempt
fails, fetch_with_retry returns the failure sentinel, and a cycle whose
fetch failed returns the state unchanged: nothing is sent and nothing is
saved. -/
theorem c4_retry_exhaustion : ∀ (attempts : List (Option (List (Str × Str)))),
    (∀ a ∈ attempts, a = none) →
    fetchWithRetry attempts = none ∧
      ∀ (key : Str) (resolve : Str → Str) (s : CycleState) (sendOk : Str → Bool),
        cycleStep key resolve s ⟨none, sendOk⟩ = s := by
  intro attempts h
  exact ⟨fetchWithRetry_all_none attempts h, fun key resolve s sendOk => rfl⟩

/-- Witness for C4 at the default bound of three failing attempts. -/
theorem c4_retry_exhaustion_witness :
    (∀ a ∈ ([none, none, none] : List (Option (List (Str × Str)))), a = none) ∧
      (fetchWithRetry ([none, none, none] : List (Option (List (Str × Str)))) = none ∧
        ∀ (key : Str) (resolve : Str → Str) (s : CycleState) (sendOk : Str → Bool),
          cycleStep key resolve s ⟨none, sendOk⟩ = s) :=
  ⟨by decide, c4_retry_exhaustion [none, none, none] (by decide)⟩

/-- C5: Batch boundary algorithm.  The dispatcher orders items
lexicographically by their serialised representation (the sorted
enumeration is sorted and enumerates exactly the item set), every batch
consists of the sorted fragments in order with nothing dropped and the
final batch flushed, and on the four-item set whose rendered fragments
have sizes [1000, 1000, 1000, 1000] with limit 3500 the batches contain
[3, 1] items. -/
theorem c5_batch_boundary :
    (∀ items : Finset Str,
        List.Sorted (· ≤ ·) (sortItems items) ∧
        (sortItems items).toFinset = items ∧
        (chunks partLen 3500 (sortItems items)).flatten = sortItems items) ∧
      [itemA, itemB, itemC, itemD].map partLen = [1000, 1000, 1000, 1000] ∧
      sortItems ex4 = [itemA, itemB, itemC, itemD] ∧
      (chunks partLen 3500 (sortItems ex4)).map List.length = [3, 1] := by
  have hA : partLen itemA = 1000 := partLen_single 'a' 'b' (by decide) (by decide) (by decide) 984
  have hB : partLen itemB = 1000 := partLen_single 'a' 'c' (by decide) (by decide) (by decide) 984
  have hC : partLen itemC = 1000 := partLen_single 'a' 'd' (by decide) (by decide) (by decide) 984
  have hD : partLen itemD = 1000 := partLen_single 'a' 'e' (by decide) (by decide) (by decide) 984
  have hsort : sortItems ex4 = [itemA, itemB, itemC, itemD] := by
    rw [sortItems, ex4]
    rw [Finset.sort_insert, Finset.sort_insert, Finset.sort_insert, Finset.sort_singleton]
      <;> decide
  refine ⟨fun items => ⟨Finset.sort_sorted _ _, sortItems_toFinset items,
    chunks_flatten _ _ _⟩, ?_, hsort, ?_⟩
  · simp [hA, hB, hC, hD]
  · rw [hsort]
    simp [chunks, chunksAux, hA, hB, hC, hD]

/-- C6 is false as stated: with a single item whose rendered fragment has
length 3616, the final outbound message (header plus fragment) has length
3640, exceeding the 3500 threshold; the loop compares only the accumulated
fragment lengths, never the full message length. -/
theorem c6_batch_size_counterexample :
    ¬ ∀ m ∈ messagesFor keyW ({bigItem} : Finset Str), m.length ≤ 3500 := by
  intro h
  have hlen : partLen bigItem = 16 + 3600 :=
    partLen_single 't' 'a' (by decide) (by decide) (by decide) 3600
  have hchunks : chunks partLen 3500 [bigItem] = [[], [bigItem]] := by
    simp [chunks, chunksAux, hlen]
  have hmem : mkMessage keyW [bigItem] ∈ messagesFor keyW {bigItem} := by
    rw [messagesFor, sortItems_singleton, hchunks]
    simp
  have hle := h (mkMessage keyW [bigItem]) hmem
  have hlen2 : (mkMessage keyW [bigItem]).length = (headerFor keyW).length + partLen bigItem := by
    rw [mkMessage]
    simp [joinSep, partLen, List.length_append]
  have hhdr : (headerFor keyW).length = 24 := by decide
  rw [hlen2, hhdr, hlen] at hle
  omega

/-- C6 (amended): what the loop actually bounds is the sum of the rendered
fragment lengths within each batch, excluding the site header and the
separators: whenever every individual fragment fits the 3500 limit, every
batch's fragment-length sum is at most 3500.  The full message, which adds
the header and separators, can exceed 3500. -/
theorem c6_batch_size_amended : ∀ (items : Finset Str),
    (∀ i ∈ sortItems items, partLen i ≤ 3500) →
    ∀ b ∈ chunks partLen 3500 (sortItems items), (b.map partLen).sum ≤ 3500 := by
  intro items h
  exact chunksAux_sum_le partLen 3500 (sortItems items) h [] 0 rfl (Nat.zero_le _)

/-- Witness for the amended C6 at a concrete singleton item set. -/
theorem c6_batch_size_amended_witness :
    (∀ i ∈ sortItems exW, partLen i ≤ 3500) ∧
      ∀ b ∈ chunks partLen 3500 (sortItems exW), (b.map partLen).sum ≤ 3500 :=
  ⟨by intro i hi
      simp only [exW, sortItems_singleton, List.mem_singleton] at hi
      rw [hi]; decide,
   c6_batch_size_amended exW
    (by intro i hi
        simp only [exW, sortItems_singleton, List.mem_singleton] at hi
        rw [hi]; decide)⟩

/-- C7: Keyword filter correctness.  An anchor element is retained by the
extractor exactly when some configured keyword occurs, under
case-insensitive comparison, as a substring of the whitespace-normalised
visible text; in particular the spec's examples hold. -/
theorem c7_keyword_filter : ∀ a : Str × Str,
    (retainedAnchor a = true ↔
      ∃ kw ∈ KEYWORDS, ∃ l r, l ++ lowerStr kw ++ r = lowerStr (normalizeTitle a.1)) ∧
    retainedAnchor (str "New NEET MDS 2025 Notification", str "x") = true ∧
    retainedAnchor (str "Staff Holiday List", str "x") = false := by
  intro a
  refine ⟨?_, by decide, by decide⟩
  rw [retainedAnchor, keywordHit, List.any_eq_true]
  constructor
  · rintro ⟨kw, hkw, hc⟩
    obtain ⟨l, r, hlr⟩ := (containsSub_iff kw _).mp hc
    exact ⟨kw, hkw, l, r, by rw [keywords_lower kw hkw]; exact hlr⟩
  · rintro ⟨kw, hkw, l, r, hlr⟩
    refine ⟨kw, hkw, (containsSub_iff kw _).mpr ⟨l, r, ?_⟩⟩
    rw [keywords_lower kw hkw] at hlr
    exact hlr

/-- C8: Trigger authorization.  The force-check endpoint rejects with 403
and starts no pass exactly when a non-empty control secret is configured
and the request token differs from it (a missing token always differs);
in every other case it acknowledges with 200 and starts one pass.  The
result is always one of these two outcomes. -/
theorem c8_trigger_authorization : ∀ (secret token : Option Str),
    (forceCheck secret token = (403, false) ↔
      (∃ s, secret = some s ∧ s ≠ []) ∧ token ≠ secret) ∧
    (forceCheck secret token = (403, false) ∨ forceCheck secret token = (200, true)) := by
  intro secret token
  cases secret with
  | none => exact ⟨by simp [forceCheck, pyTruthy], Or.inr rfl⟩
  | some s =>
    cases s with
    | nil =>
      constructor
      · simp [forceCheck, pyTruthy]
      · right; rfl
    | cons c cs =>
      by_cases ht : token = some (c :: cs)
      · have hfc : forceCheck (some (c :: cs)) token = (200, true) := by
          rw [ht]
          simp [forceCheck]
        constructor
        · rw [hfc]
          simp [ht]
        · exact Or.inr hfc
      · have hfc : forceCheck (some (c :: cs)) token = (403, false) := by
          simp only [forceCheck, pyTruthy]
          rw [if_pos]
          simp [bne_iff_ne, ht]
        constructor
        · rw [hfc]
          simp [ht]
        · exact Or.inl hfc

/-- C9: Monotonic growth of the seen set.  At the diff level the next
state contains the previous state; at the cycle level, whenever a cycle
carries an initialised stored set into a new stored set, the new set
contains the old one. -/
theorem c9_monotonic_growth :
    (∀ (current prev : Finset Str), prev ⊆ (diff current (some prev)).2) ∧
      ∀ (key : Str) (resolve : Str → Str) (s : CycleState) (inp : CycleInput)
        (S S2 : Finset Str), s.stored = some S →
        (cycleStep key resolve s inp).stored = some S2 → S ⊆ S2 := by
  constructor
  · intro current prev
    show prev ⊆ prev ∪ (current \ prev)
    exact Finset.subset_union_left
  · intro key resolve s inp S S2 h1 h2
    cases hf : inp.fetched with
    | none =>
      have hstep : cycleStep key resolve s inp = s := by simp only [cycleStep, hf]
      rw [hstep, h1] at h2
      injection h2 with h3
      exact h3 ▸ Finset.Subset.refl S
    | some anchors =>
      by_cases hnew : extract resolve anchors \ S = ∅
      · have hstep : cycleStep key resolve s inp = s := by
          simp only [cycleStep, hf, h1, if_pos hnew]
        rw [hstep, h1] at h2
        injection h2 with h3
        exact h3 ▸ Finset.Subset.refl S
      · have hstep : cycleStep key resolve s inp =
            dispatchUpdate key s S (extract resolve anchors \ S) inp.sendOk := by
          simp only [cycleStep, hf, h1, if_neg hnew]
        rw [hstep] at h2
        simp only [dispatchUpdate] at h2
        injection h2 with h3
        rw [← h3]
        exact Finset.subset_union_left

/-- Witness for C9 at a concrete initialised state and a failing fetch. -/
theorem c9_monotonic_growth_witness :
    s9.stored = some ∅ ∧
      (cycleStep keyW resolveW s9 ⟨none, fun _ => false⟩).stored = some ∅ ∧
      (∅ : Finset Str) ⊆ ∅ :=
  ⟨rfl, rfl,
   c9_monotonic_growth.2 keyW resolveW s9 ⟨none, fun _ => false⟩ ∅ ∅ rfl rfl⟩

/-- C10: Delimiter collision.  For a title containing the double-colon
separator (splitDD title = some (a, b) names the portions before and
after its first occurrence), the dispatcher recovers heading a and target
b ++ separator ++ url from the serialised item, renders a as the link text
and the rest as the link target, and the original (title, url) pair is not
recovered. -/
theorem c10_delimiter_collision : ∀ (title url a b : Str),
    splitDD title = some (a, b) →
    parseItem (mkItem title url) = (a, b ++ str "::" ++ url) ∧
      renderPart (mkItem title url) =
        str "<a href=\"" ++ htmlEscape true (b ++ str "::" ++ url) ++ str "\">" ++
          htmlEscape false a ++ str "</a>" ∧
      a ≠ title ∧ b ++ str "::" ++ url ≠ url := by
  intro title url a b h
  have happ : splitDD (mkItem title url) = some (a, b ++ str "::" ++ url) := by
    rw [mkItem, List.append_assoc title (str "::") url, List.append_assoc b (str "::") url]
    exact splitDD_append title a b (str "::" ++ url) h
  have hp : parseItem (mkItem title url) = (a, b ++ str "::" ++ url) := by
    simp only [parseItem, happ]
  have hdec := splitDD_decomp title a b h
  refine ⟨hp, ?_, ?_, ?_⟩
  · simp only [renderPart, hp]
  · intro heq
    rw [← heq] at hdec
    have hl := congrArg List.length hdec
    simp [List.length_append] at hl
  · intro heq
    have hl := congrArg List.length heq
    simp [List.length_append, str] at hl
    omega

/-- Witness for C10 at a concrete colliding title. -/
theorem c10_delimiter_collision_witness :
    splitDD (str "NEET::MDS") = some (str "NEET", str "MDS") ∧
      (parseItem (mkItem (str "NEET::MDS") (str "u")) =
          (str "NEET", str "MDS" ++ str "::" ++ str "u") ∧
        renderPart (mkItem (str "NEET::MDS") (str "u")) =
          str "<a href=\"" ++ htmlEscape true (str "MDS" ++ str "::" ++ str "u") ++ str "\">" ++
            htmlEscape false (str "NEET") ++ str "</a>" ∧
        str "NEET" ≠ str "NEET::MDS" ∧ str "MDS" ++ str "::" ++ str "u" ≠ str "u") :=
  ⟨by decide, c10_delimiter_collision (str "NEET::MDS") (str "u") (str "NEET") (str "MDS")
    (by decide)⟩
